import Mathlib

/-!
Shallow embedding of `nni/retiarii/execution/base.py` (module `BaseGraphData`
and class `BaseExecutionEngine`).

Conventions of the embedding:

* `MetricData` is opaque to the engine (it only stores metric values), so it is
  a type parameter `M`; listeners are external objects whose callbacks the
  engine invokes, so a listener is an opaque handle of type parameter `L` and a
  handler is modelled as returning, next to the updated engine state, the
  ordered list of listener calls it performs (one entry per invoked callback,
  in invocation order, the call carrying the handle and the arguments passed).
* Python's `dict` (insertion-ordered, assignment overwrites an existing key in
  place, lookup of a missing key raises `KeyError`) is modelled by an
  association list `List (Int × α)` with `dictGet`/`dictSet` below.
* A Python method that can raise is embedded as a function into `Except`;
  `Except.error` means the exception propagated before any state mutation
  performed later in the method body, which matches the source because the
  raising lookup is the first statement of each handler.  `stateAfter` and
  `callsOf` recover the engine state, respectively the performed listener
  calls, of such a result (the pre-state and no calls on an exception).
* Machine integers are embedded as unbounded `Int`, as in Python.
-/

/-- Status enum of a model (from `nni.retiarii.graph.ModelStatus`); the engine
in `base.py` writes `Trained` and `Failed`. -/
inductive ModelStatus where
  | Waiting
  | Running
  | Trained
  | Failed
deriving DecidableEq, Repr

/-- The slice of `nni.retiarii.graph.Model` that `base.py` reads and writes:
`status`, the append-only `intermediate_metrics` list, and the final `metric`
field (absent until first written).  `M` is the opaque metric type. -/
structure Model (M : Type) where
  status : ModelStatus
  intermediate_metrics : List M
  metric : Option M
deriving DecidableEq, Repr

/-- Lookup in a Python-style dict embedded as an association list:
`d[k]`, returning `none` where Python raises `KeyError`. -/
def dictGet {α : Type} : List (Int × α) → Int → Option α
  | [], _ => none
  | (k2, v) :: rest, k => if k2 = k then some v else dictGet rest k

/-- Assignment `d[k] = v` on a Python-style dict: overwrites in place when the
key is present, otherwise appends (Python dicts are insertion-ordered). -/
def dictSet {α : Type} : List (Int × α) → Int → α → List (Int × α)
  | [], k, v => [(k, v)]
  | (k2, v2) :: rest, k, v =>
      if k2 = k then (k, v) :: rest else (k2, v2) :: dictSet rest k v

/-- State of a `BaseExecutionEngine`: the `_listeners` list, the
`_running_models` dict and the `resources` counter (`base.py`, `__init__`). -/
structure Engine (M L : Type) where
  listeners : List L
  running_models : List (Int × Model M)
  resources : Int
deriving DecidableEq, Repr

/-- A freshly constructed engine: `__init__` sets `_listeners = []`,
`_running_models = dict()`, `resources = 0` (the advisor callback registration
is wiring to the outside and carries no engine state). -/
def initEngine (M L : Type) : Engine M L :=
  { listeners := [], running_models := [], resources := 0 }

/-- `register_graph_listener`: appends the listener to `_listeners`. -/
def registerGraphListener {M L : Type} (e : Engine M L) (listener : L) : Engine M L :=
  { e with listeners := e.listeners ++ [listener] }

/-- `_send_trial_callback(self, paramater)`: warns when `resources <= 0`
(the returned `Bool` records whether the warning was logged), then decrements
`resources` by one.  The parameter (type `P`, a dict in the source) is unused
by the body. -/
def sendTrialCallback {M L P : Type} (e : Engine M L) (paramater : P) : Engine M L × Bool :=
  ({ e with resources := e.resources - 1 }, if e.resources ≤ 0 then true else false)

/-- `_request_trial_jobs_callback(self, num_trials)`: adds `num_trials` to
`resources`. -/
def requestTrialJobsCallback {M L : Type} (e : Engine M L) (num_trials : Int) : Engine M L :=
  { e with resources := e.resources + num_trials }

/-- `query_available_resource`: returns `self.resources`. -/
def queryAvailableResource {M L : Type} (e : Engine M L) : Int :=
  e.resources

/-- The exception a handler can raise: `self._running_models[trial_id]` on an
unknown id raises `KeyError(trial_id)` (the spec's `UnknownTrial`). -/
inductive EngineErr where
  | keyError (trial_id : Int)
deriving DecidableEq, Repr

/-- `_trial_end_callback(self, trial_id, success)`: looks up the model
(raising on an unknown id), sets its status to `Trained` on success and
`Failed` otherwise, then calls `listener.on_training_end(model, success)` for
each listener in `_listeners` order.  The returned list records those calls. -/
def trialEndCallback {M L : Type} (e : Engine M L) (trial_id : Int) (success : Bool) :
    Except EngineErr (Engine M L × List (L × Model M × Bool)) :=
  match dictGet e.running_models trial_id with
  | none => Except.error (EngineErr.keyError trial_id)
  | some model =>
      let model2 := { model with
        status := if success then ModelStatus.Trained else ModelStatus.Failed }
      Except.ok
        ({ e with running_models := dictSet e.running_models trial_id model2 },
         e.listeners.map (fun listener => (listener, model2, success)))

/-- `_intermediate_metric_callback(self, trial_id, metrics)`: looks up the
model (raising on an unknown id), appends `metrics` to
`model.intermediate_metrics`, then calls
`listener.on_intermediate_metric(model, metrics)` for each listener in order. -/
def intermediateMetricCallback {M L : Type} (e : Engine M L) (trial_id : Int) (metrics : M) :
    Except EngineErr (Engine M L × List (L × Model M × M)) :=
  match dictGet e.running_models trial_id with
  | none => Except.error (EngineErr.keyError trial_id)
  | some model =>
      let model2 := { model with
        intermediate_metrics := model.intermediate_metrics ++ [metrics] }
      Except.ok
        ({ e with running_models := dictSet e.running_models trial_id model2 },
         e.listeners.map (fun listener => (listener, model2, metrics)))

/-- `_final_metric_callback(self, trial_id, metrics)`: looks up the model
(raising on an unknown id), overwrites `model.metric` with `metrics`, then
calls `listener.on_metric(model, metrics)` for each listener in order. -/
def finalMetricCallback {M L : Type} (e : Engine M L) (trial_id : Int) (metrics : M) :
    Except EngineErr (Engine M L × List (L × Model M × M)) :=
  match dictGet e.running_models trial_id with
  | none => Except.error (EngineErr.keyError trial_id)
  | some model =>
      let model2 := { model with metric := some metrics }
      Except.ok
        ({ e with running_models := dictSet e.running_models trial_id model2 },
         e.listeners.map (fun listener => (listener, model2, metrics)))

/-- Engine state after a possibly-raising handler: the handler's exception
propagates before any mutation, so on `error` the state is the pre-state. -/
def stateAfter {M L C : Type} (e : Engine M L) :
    Except EngineErr (Engine M L × List C) → Engine M L
  | Except.error _ => e
  | Except.ok (e2, _) => e2

/-- Listener calls performed by a possibly-raising handler: none when the
exception propagated. -/
def callsOf {M L C : Type} :
    Except EngineErr (Engine M L × List C) → List C
  | Except.error _ => []
  | Except.ok (_, calls) => calls

/-- A resource event as seen by the engine: the advisor either grants `n`
units (`_request_trial_jobs_callback(n)`) or consumes one
(`_send_trial_callback(params)`). -/
inductive ResourceEvent where
  | grant (n : Int)
  | consume
deriving DecidableEq, Repr

/-- Apply one resource event to the engine.  The consume handler's parameter
is irrelevant to the ledger (its body never reads it), so it is applied at
`()`. -/
def applyResourceEvent {M L : Type} (e : Engine M L) : ResourceEvent → Engine M L
  | ResourceEvent.grant n => requestTrialJobsCallback e n
  | ResourceEvent.consume => (sendTrialCallback e ()).1

/-- Apply a finite sequence of resource events in order. -/
def applyResourceEvents {M L : Type} (e : Engine M L) : List ResourceEvent → Engine M L
  | [] => e
  | ev :: evs => applyResourceEvents (applyResourceEvent e ev) evs

/-- Sum of the amounts granted in an event sequence. -/
def grantSum : List ResourceEvent → Int
  | [] => 0
  | ResourceEvent.grant n :: evs => n + grantSum evs
  | ResourceEvent.consume :: evs => grantSum evs

/-- Number of consume events in an event sequence, as an integer. -/
def consumeCount : List ResourceEvent → Int
  | [] => 0
  | ResourceEvent.grant _ :: evs => consumeCount evs
  | ResourceEvent.consume :: evs => 1 + consumeCount evs

/-- `submit_models(self, *models)`: for each model in order, compile it to a
payload, send it to the advisor, and record the returned trial id in
`_running_models` via `self._running_models[send_trial(data.dump())] = model`.
`send_trial` is external (the advisor assigns the ids), so the ids it returns
are passed in as a list, one per model, consumed in submission order; the
iteration stops when either list is exhausted. -/
def submitModels {M L : Type} : Engine M L → List Int → List (Model M) → Engine M L
  | e, trial_id :: ids, m :: ms =>
      submitModels { e with running_models := dictSet e.running_models trial_id m } ids ms
  | e, _, _ => e

/-- Apply a sequence of `_final_metric_callback` events for one trial id,
threading the engine state (an exception leaves the state unchanged). -/
def applyFinals {M L : Type} (e : Engine M L) (trial_id : Int) : List M → Engine M L
  | [] => e
  | x :: xs => applyFinals (stateAfter e (finalMetricCallback e trial_id x)) trial_id xs

/-- `BaseGraphData(model_script, training_module, training_kwargs)`.  The
kwargs dict holds arbitrary serializable values, opaque here: type `K`. -/
structure BaseGraphData (K : Type) where
  model_script : String
  training_module : String
  training_kwargs : K
deriving DecidableEq, Repr

/-- A value stored in the dict produced by `BaseGraphData.dump`: the script
and module fields are strings, the kwargs field is the kwargs mapping. -/
inductive DumpVal (K : Type) where
  | str (s : String)
  | kw (k : K)
deriving DecidableEq, Repr

/-- Lookup `data[k]` in a string-keyed Python dict (association list),
`none` where Python raises `KeyError`. -/
def strDictGet {α : Type} : List (String × α) → String → Option α
  | [], _ => none
  | (k2, v) :: rest, k => if k2 = k then some v else strDictGet rest k

/-- `BaseGraphData.dump`: returns the dict with the three named fields. -/
def BaseGraphData.dump {K : Type} (d : BaseGraphData K) : List (String × DumpVal K) :=
  [("model_script", DumpVal.str d.model_script),
   ("training_module", DumpVal.str d.training_module),
   ("training_kwargs", DumpVal.kw d.training_kwargs)]

/-- `BaseGraphData.load(data)`: reads `data['model_script']`,
`data['training_module']`, `data['training_kwargs']` and builds a
`BaseGraphData`; `none` where Python would raise (missing key, or a value of
the wrong shape for the typed embedding). -/
def BaseGraphData.load {K : Type} (data : List (String × DumpVal K)) :
    Option (BaseGraphData K) :=
  match strDictGet data "model_script", strDictGet data "training_module",
      strDictGet data "training_kwargs" with
  | some (DumpVal.str ms), some (DumpVal.str tm), some (DumpVal.kw kw) =>
      some { model_script := ms, training_module := tm, training_kwargs := kw }
  | _, _, _ => none

/-- The exception `trial_execute_graph` can let escape when the trainer's
`fit()` raises. -/
inductive TrialErr where
  | fitRaised
deriving DecidableEq, Repr

/-- `trial_execute_graph(cls)`: writes `model_script` to
`_generated_model_<random_str>.py`, imports the trainer and the generated
model, instantiates them, runs `trainer_instance.fit()`, and only then calls
`os.remove(file_name)` — the remove is the next statement after `fit()`, with
no `try`/`finally`, so an exception from `fit()` propagates before it.
The filesystem is a list of file names present; the random suffix and the
outcome of `fit()` are external, so they are parameters.  Returns the fate of
the call (ok, or the escaped exception) and the resulting filesystem. -/
def trialExecuteGraph (random_str : String) (fitSucceeds : Bool) (fs : List String) :
    Except TrialErr Unit × List String :=
  let file_name := "_generated_model_" ++ random_str ++ ".py"
  let fs1 := fs ++ [file_name]
  if fitSucceeds then (Except.ok (), fs1.erase file_name)
  else (Except.error TrialErr.fitRaised, fs1)

/-- A concrete model used by witnesses: running, no metrics yet. -/
def mW : Model Nat :=
  { status := ModelStatus.Running, intermediate_metrics := [], metric := none }

/-- A concrete engine used by witnesses: listeners `10` and `20` registered in
that order, model `mW` registered under trial id 1. -/
def engW : Engine Nat Nat :=
  { listeners := [10, 20], running_models := [(1, mW)], resources := 0 }

theorem resources_applyResourceEvents {M L : Type} :
    ∀ (evs : List ResourceEvent) (e : Engine M L),
      (applyResourceEvents e evs).resources = e.resources + (grantSum evs - consumeCount evs) := by
  intro evs
  induction evs with
  | nil => intro e; simp [applyResourceEvents, grantSum, consumeCount]
  | cons ev evs ih =>
      intro e
      cases ev with
      | grant n =>
          simp only [applyResourceEvents, applyResourceEvent, requestTrialJobsCallback,
            grantSum, consumeCount, ih]
          ring
      | consume =>
          simp only [applyResourceEvents, applyResourceEvent, sendTrialCallback,
            grantSum, consumeCount, ih]
          ring

/-- C1: starting from a freshly constructed engine, after any finite sequence
of grant and consume events in any order, `query_available_resource()` returns
the sum of all granted amounts minus the number of consume events (possibly
negative). -/
theorem queryAvailableResource_eq_grants_sub_consumes (M L : Type)
    (evs : List ResourceEvent) :
    queryAvailableResource (applyResourceEvents (initEngine M L) evs) =
      grantSum evs - consumeCount evs := by
  simp [queryAvailableResource, resources_applyResourceEvents, initEngine]

theorem dictGet_dictSet_self {α : Type} (d : List (Int × α)) (k : Int) (v : α) :
    dictGet (dictSet d k v) k = some v := by
  induction d with
  | nil => simp [dictSet, dictGet]
  | cons hd tl ih =>
      obtain ⟨k2, v2⟩ := hd
      by_cases hk : k2 = k
      · simp [dictSet, dictGet, hk]
      · simp [dictSet, dictGet, hk, ih]

theorem dictGet_dictSet_ne {α : Type} (d : List (Int × α)) (k k3 : Int) (v : α)
    (hne : k ≠ k3) : dictGet (dictSet d k v) k3 = dictGet d k3 := by
  induction d with
  | nil => simp [dictSet, dictGet, hne]
  | cons hd tl ih =>
      obtain ⟨k2, v2⟩ := hd
      by_cases hk : k2 = k
      · subst hk
        simp [dictSet, dictGet, hne]
      · simp [dictSet, dictGet, hk, ih]

theorem length_dictSet_fresh {α : Type} (d : List (Int × α)) (k : Int) (v : α)
    (h : dictGet d k = none) : (dictSet d k v).length = d.length + 1 := by
  induction d with
  | nil => simp [dictSet]
  | cons hd tl ih =>
      obtain ⟨k2, v2⟩ := hd
      by_cases hk : k2 = k
      · simp [dictGet, hk] at h
      · simp only [dictGet, hk, if_false] at h
        simp [dictSet, hk, ih h]

/-- C2: for a registered trial id, `_trial_end_callback` sets the model's
status to `Trained` when `success` and to `Failed` otherwise, and invokes
`on_training_end(model, success)` on every registered listener exactly once,
in registration order (the returned call list is exactly the listener list in
order), synchronously before the handler returns. -/
theorem trialEnd_sets_status_and_notifies {M L : Type} (e : Engine M L)
    (trial_id : Int) (m : Model M) (success : Bool)
    (h : dictGet e.running_models trial_id = some m) :
    trialEndCallback e trial_id success =
      Except.ok
        ({ e with running_models := (dictSet e.running_models trial_id
            { m with status := if success then ModelStatus.Trained else ModelStatus.Failed }) },
         e.listeners.map (fun listener =>
           (listener,
            { m with status := if success then ModelStatus.Trained else ModelStatus.Failed },
            success))) := by
  simp [trialEndCallback, h]

/-- Witness for C2 at a concrete engine: one model registered under id 1, two
listeners `10` and `20` registered in that order, `success = true`. -/
theorem trialEnd_sets_status_and_notifies_witness :
    dictGet engW.running_models 1 = some mW ∧
    trialEndCallback engW 1 true =
      Except.ok
        ({ engW with running_models := (dictSet engW.running_models 1
            { mW with status := if true then ModelStatus.Trained else ModelStatus.Failed }) },
         engW.listeners.map (fun listener =>
           (listener,
            { mW with status := if true then ModelStatus.Trained else ModelStatus.Failed },
            true))) :=
  ⟨rfl, trialEnd_sets_status_and_notifies engW 1 mW true rfl⟩

/-- C3: an event (trial-end, intermediate-metric or final-metric) whose trial
id is absent from `_running_models` raises `KeyError(trial_id)` (the spec's
`UnknownTrial`); the engine state — ledger, registry, every model and the
listener list — is unchanged and no listener is invoked. -/
theorem unknown_trial_raises_and_mutates_nothing {M L : Type} (e : Engine M L)
    (trial_id : Int) (success : Bool) (metrics : M)
    (h : dictGet e.running_models trial_id = none) :
    trialEndCallback e trial_id success = Except.error (EngineErr.keyError trial_id) ∧
    intermediateMetricCallback e trial_id metrics = Except.error (EngineErr.keyError trial_id) ∧
    finalMetricCallback e trial_id metrics = Except.error (EngineErr.keyError trial_id) ∧
    stateAfter e (trialEndCallback e trial_id success) = e ∧
    stateAfter e (intermediateMetricCallback e trial_id metrics) = e ∧
    stateAfter e (finalMetricCallback e trial_id metrics) = e ∧
    callsOf (trialEndCallback e trial_id success) = [] ∧
    callsOf (intermediateMetricCallback e trial_id metrics) = [] ∧
    callsOf (finalMetricCallback e trial_id metrics) = [] := by
  refine ⟨?_, ?_, ?_, ?_, ?_, ?_, ?_, ?_, ?_⟩ <;>
    simp [trialEndCallback, intermediateMetricCallback, finalMetricCallback,
      stateAfter, callsOf, h]

/-- Witness for C3: a fresh engine has no trial 7 registered; all three
handlers raise and change nothing. -/
theorem unknown_trial_raises_and_mutates_nothing_witness :
    dictGet (initEngine Nat Nat).running_models 7 = none ∧
    (trialEndCallback (initEngine Nat Nat) 7 true = Except.error (EngineErr.keyError 7) ∧
     intermediateMetricCallback (initEngine Nat Nat) 7 3 = Except.error (EngineErr.keyError 7) ∧
     finalMetricCallback (initEngine Nat Nat) 7 3 = Except.error (EngineErr.keyError 7) ∧
     stateAfter (initEngine Nat Nat) (trialEndCallback (initEngine Nat Nat) 7 true) =
       initEngine Nat Nat ∧
     stateAfter (initEngine Nat Nat) (intermediateMetricCallback (initEngine Nat Nat) 7 3) =
       initEngine Nat Nat ∧
     stateAfter (initEngine Nat Nat) (finalMetricCallback (initEngine Nat Nat) 7 3) =
       initEngine Nat Nat ∧
     callsOf (trialEndCallback (initEngine Nat Nat) 7 true) = [] ∧
     callsOf (intermediateMetricCallback (initEngine Nat Nat) 7 3) = [] ∧
     callsOf (finalMetricCallback (initEngine Nat Nat) 7 3) = []) :=
  ⟨rfl, unknown_trial_raises_and_mutates_nothing (initEngine Nat Nat) 7 true 3 rfl⟩

/-- C4: when `resources <= 0` and a consume event (`_send_trial_callback`)
arrives, the engine does not raise: it logs the warning (flag `true`) and
still decrements, so the ledger becomes `v - 1` (possibly negative) and no
other engine state changes (the record update touches only `resources`). -/
theorem consume_on_empty_ledger_warns_and_decrements {M L P : Type} (e : Engine M L) (p : P)
    (h : e.resources ≤ 0) :
    sendTrialCallback e p = ({ e with resources := e.resources - 1 }, true) := by
  simp [sendTrialCallback, h]

/-- Witness for C4 at a fresh engine (`resources = 0`): the ledger becomes
`-1` and the warning is logged, with no exception. -/
theorem consume_on_empty_ledger_warns_and_decrements_witness :
    (initEngine Nat Nat).resources ≤ 0 ∧
    sendTrialCallback (initEngine Nat Nat) () =
      ({ initEngine Nat Nat with resources := (initEngine Nat Nat).resources - 1 }, true) :=
  ⟨by decide, consume_on_empty_ledger_warns_and_decrements (initEngine Nat Nat) () (by decide)⟩

theorem applyFinals_lookup {M L : Type} (trial_id : Int) :
    ∀ (xs : List M) (y : M) (e : Engine M L) (m : Model M),
      dictGet e.running_models trial_id = some m →
      xs.getLast? = some y →
      dictGet (applyFinals e trial_id xs).running_models trial_id =
        some { m with metric := some y } := by
  intro xs
  induction xs with
  | nil =>
      intro y e m h hlast
      simp [List.getLast?_nil] at hlast
  | cons x xs ih =>
      intro y e m h hlast
      have hstep : stateAfter e (finalMetricCallback e trial_id x) =
          { e with running_models := (dictSet e.running_models trial_id
            { m with metric := some x }) } := by
        simp [finalMetricCallback, h, stateAfter]
      have hget : dictGet (stateAfter e (finalMetricCallback e trial_id x)).running_models
          trial_id = some { m with metric := some x } := by
        rw [hstep]
        exact dictGet_dictSet_self e.running_models trial_id _
      cases xs with
      | nil =>
          have hy : y = x := by
            simp at hlast
            exact hlast.symm
          subst hy
          simpa [applyFinals] using hget
      | cons x2 rest =>
          have hlast2 : (x2 :: rest).getLast? = some y := by
            rw [← List.getLast?_cons_cons]
            exact hlast
          have := ih y (stateAfter e (finalMetricCallback e trial_id x))
            { m with metric := some x } hget hlast2
          simpa [applyFinals] using this

/-- C5: for a registered trial id, an intermediate-metric event appends the
metric to the model's `intermediate_metrics` (all previously appended metrics
stay in place, in order), and after any nonempty sequence of final-metric
events for that id the model's `metric` field holds exactly the last event's
value. -/
theorem metric_events_append_and_overwrite {M L : Type} (e : Engine M L)
    (trial_id : Int) (m : Model M) (x : M) (xs : List M) (y : M)
    (h : dictGet e.running_models trial_id = some m)
    (hlast : xs.getLast? = some y) :
    intermediateMetricCallback e trial_id x =
      Except.ok
        ({ e with running_models := (dictSet e.running_models trial_id
            { m with intermediate_metrics := m.intermediate_metrics ++ [x] }) },
         e.listeners.map (fun listener =>
           (listener, { m with intermediate_metrics := m.intermediate_metrics ++ [x] }, x))) ∧
    dictGet (applyFinals e trial_id xs).running_models trial_id =
      some { m with metric := some y } := by
  constructor
  · simp [intermediateMetricCallback, h]
  · exact applyFinals_lookup trial_id xs y e m h hlast

/-- Witness for C5 at the concrete engine `engW`: appending metric 5 to the
model under id 1, and the final-metric sequence `[3, 4]` leaving `metric = 4`. -/
theorem metric_events_append_and_overwrite_witness :
    dictGet engW.running_models 1 = some mW ∧
    ([3, 4] : List Nat).getLast? = some 4 ∧
    (intermediateMetricCallback engW 1 5 =
      Except.ok
        ({ engW with running_models := (dictSet engW.running_models 1
            { mW with intermediate_metrics := mW.intermediate_metrics ++ [5] }) },
         engW.listeners.map (fun listener =>
           (listener, { mW with intermediate_metrics := mW.intermediate_metrics ++ [5] }, 5))) ∧
     dictGet (applyFinals engW 1 [3, 4]).running_models 1 =
       some { mW with metric := some 4 }) :=
  ⟨rfl, rfl, metric_events_append_and_overwrite engW 1 mW 5 [3, 4] 4 rfl rfl⟩

/-- C6 (divergence, evaluated): `trial_execute_graph` calls `os.remove` as the
statement after `trainer_instance.fit()`, with no `try`/`finally`.  At the
concrete input (suffix "ABC123", empty filesystem): when `fit()` raises, the
exception escapes and the generated artifact `_generated_model_ABC123.py` is
still on the filesystem; only when `fit()` returns normally is it removed. -/
theorem trialExecuteGraph_leaves_artifact_when_fit_raises :
    trialExecuteGraph "ABC123" false [] =
      (Except.error TrialErr.fitRaised, ["_generated_model_ABC123.py"]) ∧
    trialExecuteGraph "ABC123" true [] = (Except.ok (), []) := by
  constructor <;> rfl

/-- C7: `load(dump(x)) == x` field-wise, for every `model_script` string
(multi-line included), every `training_module` string and every
`training_kwargs` value (the kwargs type `K` is arbitrary, covering the empty
mapping). -/
theorem load_dump_roundtrip {K : Type} (x : BaseGraphData K) :
    BaseGraphData.load (BaseGraphData.dump x) = some x := by
  obtain ⟨ms, tm, kw⟩ := x
  rfl

theorem submitModels_lookup_notmem {M L : Type} :
    ∀ (ids : List Int) (ms : List (Model M)) (e : Engine M L) (k : Int),
      k ∉ ids →
      dictGet (submitModels e ids ms).running_models k = dictGet e.running_models k := by
  intro ids
  induction ids with
  | nil => intro ms e k _; cases ms <;> rfl
  | cons tid ids ih =>
      intro ms e k hk
      cases ms with
      | nil => rfl
      | cons m ms =>
          have hne : k ≠ tid := fun hcontra => hk (hcontra ▸ List.mem_cons_self tid ids)
          have hk2 : k ∉ ids := fun hmem => hk (List.mem_cons_of_mem tid hmem)
          calc dictGet (submitModels
                { e with running_models := dictSet e.running_models tid m } ids ms).running_models k
              = dictGet (dictSet e.running_models tid m) k := ih ms _ k hk2
            _ = dictGet e.running_models k :=
                dictGet_dictSet_ne e.running_models tid k m (fun hcontra => hne hcontra.symm)

theorem submitModels_length {M L : Type} :
    ∀ (ids : List Int) (ms : List (Model M)) (e : Engine M L),
      ids.length = ms.length → ids.Nodup →
      (∀ tid ∈ ids, dictGet e.running_models tid = none) →
      (submitModels e ids ms).running_models.length
        = e.running_models.length + ms.length := by
  intro ids
  induction ids with
  | nil =>
      intro ms e hlen _ _
      cases ms with
      | nil => simp [submitModels]
      | cons m ms => simp at hlen
  | cons tid ids ih =>
      intro ms e hlen hnodup hfresh
      cases ms with
      | nil => simp at hlen
      | cons m ms =>
          have hfresh0 : dictGet e.running_models tid = none :=
            hfresh tid (List.mem_cons_self tid ids)
          have hnotin : tid ∉ ids := (List.nodup_cons.mp hnodup).1
          have hfresh2 : ∀ t ∈ ids,
              dictGet (dictSet e.running_models tid m) t = none := by
            intro t ht
            have hne : tid ≠ t := fun hcontra => hnotin (hcontra ▸ ht)
            rw [dictGet_dictSet_ne e.running_models tid t m hne]
            exact hfresh t (List.mem_cons_of_mem tid ht)
          have hrec := ih ms { e with running_models := dictSet e.running_models tid m }
            (by simpa using hlen) (List.nodup_cons.mp hnodup).2 hfresh2
          simp only [submitModels, hrec]
          rw [length_dictSet_fresh e.running_models tid m hfresh0]
          simp [Nat.add_assoc, Nat.add_comm 1 ms.length]

theorem submitModels_zip_lookup {M L : Type} :
    ∀ (ids : List Int) (ms : List (Model M)) (e : Engine M L),
      ids.Nodup →
      ∀ p ∈ ids.zip ms,
        dictGet (submitModels e ids ms).running_models p.1 = some p.2 := by
  intro ids
  induction ids with
  | nil => intro ms e _ p hp; simp [List.zip] at hp
  | cons tid ids ih =>
      intro ms e hnodup p hp
      cases ms with
      | nil => simp [List.zip] at hp
      | cons m ms =>
          have hnotin : tid ∉ ids := (List.nodup_cons.mp hnodup).1
          rcases List.mem_cons.mp hp with hphead | hptail
          · subst hphead
            simp only [submitModels]
            rw [submitModels_lookup_notmem ids ms _ tid hnotin]
            exact dictGet_dictSet_self e.running_models tid m
          · simp only [submitModels]
            exact ih ms { e with running_models := dictSet e.running_models tid m }
              (List.nodup_cons.mp hnodup).2 p hptail

/-- C8: under the precondition that the advisor assigns pairwise-distinct,
never-before-used trial ids (one per model, in submission order),
`submit_models` adds exactly N entries to `_running_models` (N the number of
models), each assigned id mapping to the model submitted with it, and every
pre-existing entry (any key outside the new ids) is unchanged. -/
theorem submitModels_registers_each {M L : Type} (e : Engine M L)
    (ids : List Int) (models : List (Model M))
    (hlen : ids.length = models.length)
    (hnodup : ids.Nodup)
    (hfresh : ∀ tid ∈ ids, dictGet e.running_models tid = none) :
    (submitModels e ids models).running_models.length
        = e.running_models.length + models.length ∧
    (∀ p ∈ ids.zip models,
        dictGet (submitModels e ids models).running_models p.1 = some p.2) ∧
    (∀ k, k ∉ ids →
        dictGet (submitModels e ids models).running_models k
          = dictGet e.running_models k) :=
  ⟨submitModels_length ids models e hlen hnodup hfresh,
   submitModels_zip_lookup ids models e hnodup,
   fun k hk => submitModels_lookup_notmem ids models e k hk⟩

/-- Witness for C8 at the concrete engine `engW` (which already holds the
entry for trial id 1): submitting two models under fresh distinct ids 5, 9. -/
theorem submitModels_registers_each_witness :
    ([5, 9] : List Int).length = [mW, mW].length ∧
    ([5, 9] : List Int).Nodup ∧
    (∀ tid ∈ ([5, 9] : List Int), dictGet engW.running_models tid = none) ∧
    ((submitModels engW [5, 9] [mW, mW]).running_models.length
        = engW.running_models.length + [mW, mW].length ∧
     (∀ p ∈ ([5, 9] : List Int).zip [mW, mW],
        dictGet (submitModels engW [5, 9] [mW, mW]).running_models p.1 = some p.2) ∧
     (∀ k, k ∉ ([5, 9] : List Int) →
        dictGet (submitModels engW [5, 9] [mW, mW]).running_models k
          = dictGet engW.running_models k)) :=
  ⟨rfl, by decide, by decide,
   submitModels_registers_each engW [5, 9] [mW, mW] rfl (by decide) (by decide)⟩

/-- C10: `_send_trial_callback` never reads its parameter: from any engine
state, two invocations with arbitrary parameter values produce identical
results (same engine state and same warning flag), and the state change is
exactly a decrement of `resources` by 1 (all other fields untouched). -/
theorem sendTrialCallback_ignores_parameter {M L P : Type} (e : Engine M L) (p1 p2 : P) :
    sendTrialCallback e p1 = sendTrialCallback e p2 ∧
    (sendTrialCallback e p1).1 = { e with resources := e.resources - 1 } :=
  ⟨rfl, rfl⟩
